import Mathlib

/-!
Verification of the decentralized game-state coordination logic of
Wordle Wars (`src/src/WordleWars.vue`).

Each client keeps a local `gameState`, a local presence record that is
replicated to the peers by the realtime-presence service, a read-only view of
the other users' presences, and a shared scores list.  The file below embeds
the state-machine portion of `WordleWars.vue` — `updateGameStage`,
`allInStages`, the `gameEvents` table, `enterWaitingRoom`, `onLettersGuessed`,
`onGameComplete`, `othersPresence` and `othersFilterOdd` — as pure functions
on an explicit client-state record, and proves the specification claims about
them.
-/

/-- Modelled from the spec: the `GameState` enum lives in `src/types.ts`,
which is not among the sources.  Its members are reconstructed from the seven
distinct values referenced by `src/src/WordleWars.vue`
(`CONNECTING`, `INTRO`, `WAITING`, `READY`, `PLAYING`, `COMPLETE`, `SCORES`),
listed in the stage order the spec gives. -/
inductive GameState where
  | CONNECTING
  | INTRO
  | WAITING
  | READY
  | PLAYING
  | COMPLETE
  | SCORES
  deriving DecidableEq, Fintype

/-- Modelled from the spec: the `LetterState` enum lives in `src/types.ts`,
which is not among the sources.  `WordleWars.vue` references the members
`INITIAL`, `CORRECT`, `PRESENT` and `ABSENT` (the per-tile reveal states of a
Wordle board). -/
inductive LetterState where
  | INITIAL
  | CORRECT
  | PRESENT
  | ABSENT
  deriving DecidableEq

/-- One tile of the letter board: a letter and its reveal state
(see the `letterBoard` rows walked by `onLettersGuessed`, lines 182-187, and
the `tile.letter` / `tile.state` accesses of the mini-board component). -/
structure Tile where
  letter : Char
  state : LetterState
  deriving DecidableEq

/-- The score object  `{ [CORRECT]: _, [PRESENT]: _, [ABSENT]: _ }` kept in
the presence (lines 161, 174-178). -/
structure Score where
  correct : Nat
  present : Nat
  absent : Nat
  deriving DecidableEq

/-- The local player's presence record as used by `WordleWars.vue`
(lines 158-165): `board` is `''` before the first guess, modelled as `[]`;
`timeFinished` is `Infinity` until the game is finished, modelled as `none`;
`score` is absent until `enterWaitingRoom` sets it, hence an `Option`. -/
structure Presence where
  name : String
  board : List (List Tile)
  score : Option Score
  stage : GameState
  rowsComplete : Nat
  timeFinished : Option Nat
  deriving DecidableEq

/-- One entry of `others`: a connected user, whose presence may not have
arrived yet (the code guards every access with `other.presence &&`). -/
structure OtherEntry where
  presence : Option Presence
  deriving DecidableEq

/-- The client state visible to the embedded functions: the local
`gameState` variable (line 36), the local presence (`myPresence`, `none`
while connecting), the other users (`others`), and the shared scores list
(`savedScores`, `none` while the list is not yet available). -/
structure ClientState where
  gameState : GameState
  myPresence : Option Presence
  others : List OtherEntry
  savedScores : Option (List Presence)
  deriving DecidableEq

/-- `updateGameStage` (lines 125-130): when the local presence is available,
set both the local `gameState` variable and the presence's `stage` field to
the requested stage; otherwise do nothing. -/
def updateGameStage (st : ClientState) (stage : GameState) : ClientState :=
  match st.myPresence with
  | some p =>
    { st with gameState := stage, myPresence := some { p with stage := stage } }
  | none => st

/-- The `others.value?.toArray().every(...)` check inside `allInStages`
(lines 145-147): every other user has a presence whose `stage` equals `s`. -/
def othersReady (others : List OtherEntry) (s : GameState) : Bool :=
  others.all fun o =>
    match o.presence with
    | some q => q.stage == s
    | none => false

/-- The `stages.some(...)` loop of `allInStages` (lines 144-150).  `found` is
the mutable `myPresenceFound` accumulator: at each stage it is or-ed with
`myPresence.value.stage === stage` before `some` tests `othersReady`; on the
first stage where every other user matches, `some` short-circuits and the
overall result is the accumulator at that point; if no stage matches, `some`
returns false and so does the final conjunction. -/
def allInStagesGo (others : List OtherEntry) (myStage : GameState)
    (found : Bool) : List GameState → Bool
  | [] => false
  | s :: rest =>
    let othersOk := othersReady others s
    let found' := found || (myStage == s)
    if othersOk then found' else allInStagesGo others myStage found' rest

/-- `allInStages` (lines 139-151): false when there are no other users
(`!others?.value.count`), otherwise the `some`-loop above conjoined with the
accumulated `myPresenceFound`. -/
def allInStages (others : List OtherEntry) (myStage : GameState)
    (stages : List GameState) : Bool :=
  if others.length == 0 then false
  else allInStagesGo others myStage false stages

/-- The `gameEvents` table together with the `watchEffect` dispatch
(lines 80-119): run the event registered for the current stage, if any.
The source asserts `myPresence!` inside `allInStages`, so the READY and
COMPLETE events are modelled only for an available presence (with no
presence the source would throw before any update, leaving the state
unchanged).  The 800 ms `setTimeout` delaying the READY → PLAYING update is
not modelled; only the resulting update is. -/
def gameEvent (st : ClientState) : ClientState :=
  match st.gameState with
  | GameState.CONNECTING =>
    -- lines 83-87: move to INTRO once presence and scores are connected
    if st.myPresence.isSome && st.savedScores.isSome then
      updateGameStage st GameState.INTRO
    else st
  | GameState.INTRO =>
    -- lines 91-95: if scores for the current word exist, show them
    match st.savedScores with
    | some l => if l.length != 0 then updateGameStage st GameState.SCORES else st
    | none => st
  | GameState.READY =>
    -- lines 99-105: when all users are in READY or PLAYING, start the game
    match st.myPresence with
    | some p =>
      if allInStages st.others p.stage [GameState.READY, GameState.PLAYING] then
        updateGameStage st GameState.PLAYING
      else st
    | none => st
  | GameState.COMPLETE =>
    -- lines 109-113: when all users are finished, show the scores
    match st.myPresence with
    | some p =>
      if allInStages st.others p.stage
          [GameState.SCORES, GameState.COMPLETE, GameState.WAITING] then
        updateGameStage st GameState.SCORES
      else st
    | none => st
  | _ => st

/-- `othersPresence` (lines 50-54): the others that have a presence, mapped
to their presences. -/
def othersPresence (others : List OtherEntry) : List Presence :=
  others.filterMap fun o => o.presence

/-- `othersFilterOdd` (lines 57-59): keep the presences with a (truthy)
score standing at an odd (resp. even) index of the `othersPresence` array;
the JS `filter((o, index) => ...)` index is the index in the array being
filtered. -/
def othersFilterOdd (ops : List Presence) (odd : Bool) : List Presence :=
  (ops.enum.filter fun io =>
    io.2.score.isSome && (io.1 % 2 == if odd then 1 else 0)).map Prod.snd

/-- `enterWaitingRoom` (lines 157-169): set the full default presence
(board `''` modelled as `[]`, `timeFinished: Infinity` modelled as `none`,
`stage` set to the current `gameState`), then move to the WAITING stage.
The `localStorage` write is not modelled. -/
def enterWaitingRoom (st : ClientState) (username : String) : ClientState :=
  let p : Presence :=
    { name := username, board := [],
      score := some { absent := 0, correct := 0, present := 0 },
      stage := st.gameState, rowsComplete := 0, timeFinished := none }
  let st1 := { st with myPresence := some p }
  updateGameStage st1 GameState.WAITING

/-- The `Object.values(letterStates).forEach(state => currentScore[state] += 1)`
loop of `onLettersGuessed` (lines 179-181), folding over the values of the
`letterStates` record.  An `INITIAL` value would hit a key the score object
does not carry (`undefined + 1` in JS) and leaves the three tracked counters
unchanged. -/
def scoreOfStates (letterStates : List LetterState) : Score :=
  letterStates.foldl
    (fun sc state =>
      match state with
      | LetterState.CORRECT => { sc with correct := sc.correct + 1 }
      | LetterState.PRESENT => { sc with present := sc.present + 1 }
      | LetterState.ABSENT => { sc with absent := sc.absent + 1 }
      | LetterState.INITIAL => sc)
    { correct := 0, present := 0, absent := 0 }

/-- `onLettersGuessed` (lines 173-189): recompute the score from the letter
states, count the board rows whose every tile is revealed (state not
`INITIAL`), and merge score, board and `rowsComplete` into the presence. -/
def onLettersGuessed (st : ClientState) (letterStates : List LetterState)
    (letterBoard : List (List Tile)) : ClientState :=
  let currentScore := scoreOfStates letterStates
  let rowsComplete := letterBoard.foldl
    (fun acc curr =>
      if curr.all fun obj => obj.state != LetterState.INITIAL then acc + 1
      else acc) 0
  match st.myPresence with
  | some p =>
    let p1 := { p with score := some currentScore, board := letterBoard,
                       rowsComplete := rowsComplete }
    { st with myPresence := some p1 }
  | none => st

/-- The score spread
`{ ...myPresence.value.score, [LetterState.CORRECT]: answer.length }`
(line 199): keep the old counters and overwrite the CORRECT one; a missing
score object spreads to nothing, its missing counters modelled as 0. -/
def scoreWithCorrect (os : Option Score) (n : Nat) : Score :=
  match os with
  | some s => { s with correct := n }
  | none => { correct := n, present := 0, absent := 0 }

/-- `onGameComplete` (lines 192-206): bail out unless presence and the
scores list are available; move to COMPLETE; merge a finite `timeFinished`
(`now` stands for `Number(Date.now())`) and, on success, the score with the
CORRECT counter set to `answer.length`; push the local presence onto the
shared scores list.  `updateMyPresence` is modelled as a synchronous merge,
so the pushed presence is the merged one; confetti and the emoji score are
UI-only and not modelled. -/
def onGameComplete (st : ClientState) (success : Bool) (now : Nat)
    (answerLength : Nat) : ClientState :=
  if st.myPresence.isNone || st.savedScores.isNone then st
  else
    let st1 := updateGameStage st GameState.COMPLETE
    match st1.myPresence, st1.savedScores with
    | some p1, some scores =>
      let p2 := { p1 with timeFinished := some now }
      let p3 :=
        if success then
          { p2 with score := some (scoreWithCorrect p2.score answerLength) }
        else p2
      { st1 with myPresence := some p3, savedScores := some (scores ++ [p3]) }
    | _, _ => st1

/-- The position of each stage in the lifecycle order the spec gives:
CONNECTING → INTRO → WAITING → READY → PLAYING → COMPLETE → SCORES. -/
def stageIndex : GameState → Nat
  | GameState.CONNECTING => 0
  | GameState.INTRO => 1
  | GameState.WAITING => 2
  | GameState.READY => 3
  | GameState.PLAYING => 4
  | GameState.COMPLETE => 5
  | GameState.SCORES => 6

/-- Every `updateGameStage` call site of `WordleWars.vue`, as a pair
(stage the client is in when the call site can run, requested stage):
the four `gameEvents` entries (lines 83-113), `enterWaitingRoom` reachable
from the INTRO form (line 312), the ready button (line 348) and the un-ready
button (line 351) of the WAITING/READY screen, and `onGameComplete`
(line 196) raised by the `Game` component of the PLAYING screen. -/
def clientTransitions : List (GameState × GameState) :=
  [ (GameState.CONNECTING, GameState.INTRO),   -- gameEvents[CONNECTING]
    (GameState.INTRO, GameState.SCORES),       -- gameEvents[INTRO]
    (GameState.READY, GameState.PLAYING),      -- gameEvents[READY]
    (GameState.COMPLETE, GameState.SCORES),    -- gameEvents[COMPLETE]
    (GameState.INTRO, GameState.WAITING),      -- enterWaitingRoom
    (GameState.WAITING, GameState.READY),      -- ready button
    (GameState.READY, GameState.WAITING),      -- un-ready button
    (GameState.PLAYING, GameState.COMPLETE) ]  -- onGameComplete

/-! ## Helper lemmas -/

lemma updateGameStage_others (st : ClientState) (g : GameState) :
    (updateGameStage st g).others = st.others := by
  unfold updateGameStage
  cases st.myPresence <;> rfl

lemma updateGameStage_savedScores (st : ClientState) (g : GameState) :
    (updateGameStage st g).savedScores = st.savedScores := by
  unfold updateGameStage
  cases st.myPresence <;> rfl

lemma gameEvent_others (st : ClientState) :
    (gameEvent st).others = st.others := by
  unfold gameEvent
  cases st.gameState <;> (repeat' split) <;>
    simp [updateGameStage_others]

lemma enterWaitingRoom_others (st : ClientState) (u : String) :
    (enterWaitingRoom st u).others = st.others := by
  unfold enterWaitingRoom
  rw [updateGameStage_others]

lemma onLettersGuessed_others (st : ClientState) (ls : List LetterState)
    (lb : List (List Tile)) :
    (onLettersGuessed st ls lb).others = st.others := by
  unfold onLettersGuessed
  cases st.myPresence <;> rfl

lemma onGameComplete_others (st : ClientState) (success : Bool)
    (now len : Nat) :
    (onGameComplete st success now len).others = st.others := by
  unfold onGameComplete
  cases hp : st.myPresence <;> cases hs : st.savedScores <;>
    cases success <;> simp [hp, hs, updateGameStage]

/-- Sanity link between the step functions and the transition table: a game
event either leaves the stage unchanged or takes one of the recorded
transitions. -/
lemma gameEvent_stage_mem (st : ClientState) :
    (gameEvent st).gameState = st.gameState ∨
      (st.gameState, (gameEvent st).gameState) ∈ clientTransitions := by
  unfold gameEvent
  cases hg : st.gameState <;> (try dsimp only) <;> (repeat' split) <;>
    first
      | exact Or.inl hg
      | exact Or.inl rfl
      | (cases hp : st.myPresence <;>
          simp [updateGameStage, hp, hg] <;> decide)

/-! ## Claims -/

/-- C3 counterexample: the game lifecycle state type has seven states, not
six — `WordleWars.vue` references seven distinct `GameState` members. -/
theorem gameState_not_six : Fintype.card GameState = 7 ∧ (7 : Nat) ≠ 6 := by
  constructor
  · decide
  · decide

/-- C3 amended: the game lifecycle state type maintained by each client is
an enum of exactly seven states. -/
theorem gameState_card_seven : Fintype.card GameState = 7 := by decide

/-- C2 counterexample: the un-ready button transition READY → WAITING moves
backwards in the stage order, and the INTRO → SCORES transition skips
stages, so not every transition moves to the immediately following stage. -/
theorem stageOrder_counterexample :
    (GameState.READY, GameState.WAITING) ∈ clientTransitions ∧
    stageIndex GameState.WAITING < stageIndex GameState.READY ∧
    (GameState.INTRO, GameState.SCORES) ∈ clientTransitions ∧
    stageIndex GameState.SCORES ≠ stageIndex GameState.INTRO + 1 := by
  decide

/-- C2 amended: every stage transition taken by the per-client state machine
moves the client to the immediately following stage in the order
CONNECTING → INTRO → WAITING → READY → PLAYING → COMPLETE → SCORES, except
the INTRO → SCORES shortcut (saved scores for the day's word already exist)
and the backwards READY → WAITING transition (the un-ready button). -/
theorem clientTransitions_order :
    ∀ p ∈ clientTransitions,
      stageIndex p.2 = stageIndex p.1 + 1 ∨
      p = (GameState.INTRO, GameState.SCORES) ∨
      p = (GameState.READY, GameState.WAITING) := by
  decide

/-- Witness for the amended C2 at the concrete CONNECTING → INTRO
transition. -/
theorem clientTransitions_order_witness :
    (GameState.CONNECTING, GameState.INTRO) ∈ clientTransitions ∧
    (stageIndex GameState.INTRO = stageIndex GameState.CONNECTING + 1 ∨
      (GameState.CONNECTING, GameState.INTRO)
        = (GameState.INTRO, GameState.SCORES) ∨
      (GameState.CONNECTING, GameState.INTRO)
        = (GameState.READY, GameState.WAITING)) :=
  ⟨by decide,
    clientTransitions_order (GameState.CONNECTING, GameState.INTRO) (by decide)⟩

/-- C5: every game event and every stage transition run by a client modifies
only the client's own presence; the presence records of all other users are
unchanged by the local step functions. -/
theorem localSteps_preserve_others (st : ClientState) (g : GameState)
    (u : String) (ls : List LetterState) (lb : List (List Tile))
    (success : Bool) (now len : Nat) :
    (gameEvent st).others = st.others ∧
    (updateGameStage st g).others = st.others ∧
    (enterWaitingRoom st u).others = st.others ∧
    (onLettersGuessed st ls lb).others = st.others ∧
    (onGameComplete st success now len).others = st.others :=
  ⟨gameEvent_others st, updateGameStage_others st g,
    enterWaitingRoom_others st u, onLettersGuessed_others st ls lb,
    onGameComplete_others st success now len⟩

/-- C9: `updateGameStage` is atomic with respect to connection state — with
an available presence it sets both the local `gameState` and the presence's
`stage` to the requested stage; with no presence it leaves the whole state
unchanged. -/
theorem updateGameStage_atomic (st : ClientState) (g : GameState) :
    (∀ p, st.myPresence = some p →
      (updateGameStage st g).gameState = g ∧
      (updateGameStage st g).myPresence = some { p with stage := g }) ∧
    (st.myPresence = none → updateGameStage st g = st) := by
  constructor
  · intro p hp
    simp [updateGameStage, hp]
  · intro hp
    simp [updateGameStage, hp]

/-- A concrete presence in the READY stage, for concrete evaluations. -/
def pReady : Presence :=
  { name := "a", board := [], score := none, stage := GameState.READY,
    rowsComplete := 0, timeFinished := none }

/-- A concrete state whose presence is available. -/
def stWithPresence : ClientState :=
  { gameState := GameState.WAITING, myPresence := some pReady, others := [],
    savedScores := none }

/-- A concrete state whose presence is not available. -/
def stNoPresence : ClientState :=
  { gameState := GameState.CONNECTING, myPresence := none, others := [],
    savedScores := none }

/-- Witness for C9: both branches evaluated at concrete states. -/
theorem updateGameStage_atomic_witness :
    (updateGameStage stWithPresence GameState.READY).gameState
        = GameState.READY ∧
    updateGameStage stNoPresence GameState.READY = stNoPresence :=
  ⟨((updateGameStage_atomic stWithPresence GameState.READY).1 pReady rfl).1,
    (updateGameStage_atomic stNoPresence GameState.READY).2 rfl⟩

/-- If every other user's presence sits at stage `s` and also at stage `t`,
and there is at least one other user, the two stages coincide. -/
lemma othersReady_unique {others : List OtherEntry} {s t : GameState}
    (h : others ≠ []) (hs : othersReady others s = true)
    (ht : othersReady others t = true) : s = t := by
  cases others with
  | nil => exact absurd rfl h
  | cons o os =>
    simp only [othersReady, List.all_cons, Bool.and_eq_true] at hs ht
    cases hq : o.presence with
    | none =>
      have h1 := hs.1
      rw [hq] at h1
      exact absurd h1 (by simp)
    | some q =>
      have h1 := hs.1
      have h2 := ht.1
      rw [hq] at h1 h2
      simp only [beq_iff_eq] at h1 h2
      rw [← h1, h2]

/-- The `some`-loop returns true exactly when some stage of the list has all
other users at it, and the local stage was seen at or before the first such
stage (or the accumulator was already set). -/
lemma allInStagesGo_eq_true_iff (others : List OtherEntry)
    (myStage : GameState) :
    ∀ (stages : List GameState) (found : Bool),
      allInStagesGo others myStage found stages = true ↔
        ((stages.takeWhile fun s => !othersReady others s) ≠ stages ∧
          (found = true ∨ myStage ∈ stages.take
            ((stages.takeWhile fun s => !othersReady others s).length + 1))) := by
  intro stages
  induction stages with
  | nil =>
    intro found
    simp [allInStagesGo]
  | cons s rest ih =>
    intro found
    by_cases hr : othersReady others s = true
    · simp [allInStagesGo, hr, List.takeWhile_cons]
    · have hstep : allInStagesGo others myStage found (s :: rest)
          = allInStagesGo others myStage (found || (myStage == s)) rest := by
        simp [allInStagesGo, hr]
      have htw : (s :: rest).takeWhile (fun t => !othersReady others t)
          = s :: rest.takeWhile (fun t => !othersReady others t) := by
        simp [List.takeWhile_cons, hr]
      rw [hstep, ih, htw]
      simp only [List.length_cons, List.take_succ_cons, List.mem_cons,
        ne_eq, List.cons.injEq, true_and, Bool.or_eq_true, beq_iff_eq]
      tauto

/-- C8 amended: `allInStages` returns true iff there is at least one other
user, some stage of the list has every other user's presence at exactly that
stage, and the local player's stage occurs in the list at or before the
first such stage; in particular it returns false whenever the set of other
users is empty, so a lone player never transitions out of READY or COMPLETE
via a game event. -/
theorem allInStages_characterization (others : List OtherEntry)
    (myStage : GameState) (stages : List GameState) :
    (allInStages others myStage stages = true ↔
      (others ≠ [] ∧
        (stages.takeWhile fun s => !othersReady others s) ≠ stages ∧
        myStage ∈ stages.take
          ((stages.takeWhile fun s => !othersReady others s).length + 1))) ∧
    allInStages [] myStage stages = false := by
  constructor
  · unfold allInStages
    by_cases h0 : (others.length == 0) = true
    · have he : others = [] := by simpa using h0
      simp [h0, he]
    · have hne : others ≠ [] := by
        intro h
        subst h
        simp at h0
      rw [if_neg (by simpa using h0)]
      rw [allInStagesGo_eq_true_iff others myStage stages false]
      simp [hne]
  · simp [allInStages]

/-- A concrete other user whose presence is in the READY stage. -/
def otherReady : OtherEntry :=
  ⟨some { pReady with name := "b" }⟩

/-- C8 counterexample: with one other user in READY, local stage PLAYING and
target list [READY, PLAYING], a stage of the list (READY) has every other
user at exactly that stage and the local stage is in the list, yet
`allInStages` returns false — the JS `some` short-circuits at READY before
the local stage has been compared with PLAYING. -/
theorem allInStages_counterexample :
    othersReady [otherReady] GameState.READY = true ∧
    GameState.PLAYING ∈ [GameState.READY, GameState.PLAYING] ∧
    allInStages [otherReady] GameState.PLAYING
      [GameState.READY, GameState.PLAYING] = false := by decide

/-- Normal form of `allInStages` on the READY-event list: all others READY
and the local stage is READY, or all others PLAYING and the local stage is
READY or PLAYING (with at least one other user). -/
lemma allInStages_ready_pair (others : List OtherEntry) (my : GameState) :
    allInStages others my [GameState.READY, GameState.PLAYING] = true ↔
      (others ≠ [] ∧
        ((othersReady others GameState.READY = true ∧ my = GameState.READY) ∨
          (othersReady others GameState.PLAYING = true ∧
            (my = GameState.READY ∨ my = GameState.PLAYING)))) := by
  unfold allInStages
  by_cases h0 : (others.length == 0) = true
  · have he : others = [] := by simpa using h0
    simp [h0, he]
  · have hne : others ≠ [] := by
      intro h
      subst h
      simp at h0
    rw [if_neg h0]
    by_cases h1 : othersReady others GameState.READY = true
    · by_cases h2 : othersReady others GameState.PLAYING = true
      · exact absurd (othersReady_unique hne h1 h2) (by decide)
      · simp [allInStagesGo, h1, h2, hne]
    · by_cases h2 : othersReady others GameState.PLAYING = true
      · simp [allInStagesGo, h1, h2, hne]
      · simp [allInStagesGo, h1, h2, hne]

/-- C1 amended: while the local client is in the READY stage (presence
available), a presence update moves it to PLAYING iff there is at least one
other user and either every other user's presence is in READY and the local
presence stage is READY, or every other user's presence is in PLAYING and
the local presence stage is READY or PLAYING; otherwise the whole client
state is unchanged. -/
theorem readyEvent_characterization (st : ClientState) (p : Presence)
    (hg : st.gameState = GameState.READY) (hp : st.myPresence = some p) :
    ((gameEvent st).gameState = GameState.PLAYING ↔
      (st.others ≠ [] ∧
        ((othersReady st.others GameState.READY = true ∧
            p.stage = GameState.READY) ∨
          (othersReady st.others GameState.PLAYING = true ∧
            (p.stage = GameState.READY ∨ p.stage = GameState.PLAYING))))) ∧
    (¬ (st.others ≠ [] ∧
        ((othersReady st.others GameState.READY = true ∧
            p.stage = GameState.READY) ∨
          (othersReady st.others GameState.PLAYING = true ∧
            (p.stage = GameState.READY ∨ p.stage = GameState.PLAYING)))) →
      gameEvent st = st) := by
  have hev : gameEvent st
      = if allInStages st.others p.stage [GameState.READY, GameState.PLAYING]
          then updateGameStage st GameState.PLAYING else st := by
    unfold gameEvent
    rw [hg, hp]
  by_cases hall :
      allInStages st.others p.stage [GameState.READY, GameState.PLAYING] = true
  · have hRHS := (allInStages_ready_pair st.others p.stage).mp hall
    constructor
    · constructor
      · intro _
        exact hRHS
      · intro _
        rw [hev, if_pos hall]
        simp [updateGameStage, hp]
    · intro hc
      exact absurd hRHS hc
  · have hst : gameEvent st = st := by
      rw [hev, if_neg hall]
    have hcond := fun hc =>
      hall ((allInStages_ready_pair st.others p.stage).mpr hc)
    constructor
    · constructor
      · intro h'
        rw [hst, hg] at h'
        exact absurd h' (by decide)
      · intro hc
        exact absurd hc hcond
    · intro _
      exact hst

/-- A concrete state: local client READY, the only other user READY. -/
def stReadyAll : ClientState :=
  { gameState := GameState.READY, myPresence := some pReady,
    others := [otherReady], savedScores := none }

/-- Witness for the amended C1 at a concrete state where every other user is
READY and the local presence stage is READY: the event starts the game. -/
theorem readyEvent_characterization_witness :
    (gameEvent stReadyAll).gameState = GameState.PLAYING :=
  ((readyEvent_characterization stReadyAll pReady rfl rfl).1).mpr (by decide)

/-- A concrete other user whose presence is in the PLAYING stage. -/
def otherPlaying : OtherEntry :=
  ⟨some { pReady with name := "c", stage := GameState.PLAYING }⟩

/-- A concrete state: local client READY, one other user READY, one other
user PLAYING. -/
def stReadyMixed : ClientState :=
  { gameState := GameState.READY, myPresence := some pReady,
    others := [otherReady, otherPlaying], savedScores := none }

/-- C1 counterexample: local presence READY, one other user READY and one
PLAYING — every user is in READY or PLAYING, yet the READY event leaves the
state unchanged, because no single stage of [READY, PLAYING] holds all other
users. -/
theorem readyEvent_counterexample :
    stReadyMixed.gameState = GameState.READY ∧
    stReadyMixed.myPresence = some pReady ∧
    pReady.stage = GameState.READY ∧
    (stReadyMixed.others.all fun o =>
      match o.presence with
      | some q =>
        q.stage == GameState.READY || q.stage == GameState.PLAYING
      | none => false) = true ∧
    gameEvent stReadyMixed = stReadyMixed ∧
    (gameEvent stReadyMixed).gameState ≠ GameState.PLAYING := by decide

/-- Normal form of `allInStages` on the COMPLETE-event list
[SCORES, COMPLETE, WAITING]: some stage of the list holds every other user,
and the local stage is at or before it; with a nonempty `others` at most one
of the three all-others tests can hold, so the order drops out. -/
lemma allInStages_complete_triple (others : List OtherEntry)
    (my : GameState) :
    allInStages others my
        [GameState.SCORES, GameState.COMPLETE, GameState.WAITING] = true ↔
      (others ≠ [] ∧
        ((othersReady others GameState.SCORES = true ∧
            my = GameState.SCORES) ∨
          (othersReady others GameState.COMPLETE = true ∧
            (my = GameState.SCORES ∨ my = GameState.COMPLETE)) ∨
          (othersReady others GameState.WAITING = true ∧
            (my = GameState.SCORES ∨ my = GameState.COMPLETE ∨
              my = GameState.WAITING)))) := by
  unfold allInStages
  by_cases h0 : (others.length == 0) = true
  · have he : others = [] := by simpa using h0
    simp [h0, he]
  · have hne : others ≠ [] := by
      intro h
      subst h
      simp at h0
    rw [if_neg h0]
    by_cases h1 : othersReady others GameState.SCORES = true
    · by_cases h2 : othersReady others GameState.COMPLETE = true
      · exact absurd (othersReady_unique hne h1 h2) (by decide)
      · by_cases h3 : othersReady others GameState.WAITING = true
        · exact absurd (othersReady_unique hne h1 h3) (by decide)
        · simp [allInStagesGo, h1, h2, h3, hne]
    · by_cases h2 : othersReady others GameState.COMPLETE = true
      · by_cases h3 : othersReady others GameState.WAITING = true
        · exact absurd (othersReady_unique hne h2 h3) (by decide)
        · simp [allInStagesGo, h1, h2, h3, hne]
      · by_cases h3 : othersReady others GameState.WAITING = true
        · simp [allInStagesGo, h1, h2, h3, hne, or_assoc]
        · simp [allInStagesGo, h1, h2, h3, hne]

/-- C4 amended: while the local client is in the COMPLETE stage (presence
available), a presence update moves it to SCORES iff there is at least one
other user and some single stage among SCORES, COMPLETE, WAITING holds every
other user's presence, with the local presence stage in the list at or
before that stage; otherwise the whole client state is unchanged. -/
theorem completeEvent_characterization (st : ClientState) (p : Presence)
    (hg : st.gameState = GameState.COMPLETE) (hp : st.myPresence = some p) :
    ((gameEvent st).gameState = GameState.SCORES ↔
      (st.others ≠ [] ∧
        ((othersReady st.others GameState.SCORES = true ∧
            p.stage = GameState.SCORES) ∨
          (othersReady st.others GameState.COMPLETE = true ∧
            (p.stage = GameState.SCORES ∨ p.stage = GameState.COMPLETE)) ∨
          (othersReady st.others GameState.WAITING = true ∧
            (p.stage = GameState.SCORES ∨ p.stage = GameState.COMPLETE ∨
              p.stage = GameState.WAITING))))) ∧
    (¬ (st.others ≠ [] ∧
        ((othersReady st.others GameState.SCORES = true ∧
            p.stage = GameState.SCORES) ∨
          (othersReady st.others GameState.COMPLETE = true ∧
            (p.stage = GameState.SCORES ∨ p.stage = GameState.COMPLETE)) ∨
          (othersReady st.others GameState.WAITING = true ∧
            (p.stage = GameState.SCORES ∨ p.stage = GameState.COMPLETE ∨
              p.stage = GameState.WAITING)))) →
      gameEvent st = st) := by
  have hev : gameEvent st
      = if allInStages st.others p.stage
            [GameState.SCORES, GameState.COMPLETE, GameState.WAITING]
          then updateGameStage st GameState.SCORES else st := by
    unfold gameEvent
    rw [hg, hp]
  by_cases hall : allInStages st.others p.stage
      [GameState.SCORES, GameState.COMPLETE, GameState.WAITING] = true
  · have hRHS := (allInStages_complete_triple st.others p.stage).mp hall
    constructor
    · constructor
      · intro _
        exact hRHS
      · intro _
        rw [hev, if_pos hall]
        simp [updateGameStage, hp]
    · intro hc
      exact absurd hRHS hc
  · have hst : gameEvent st = st := by
      rw [hev, if_neg hall]
    have hcond := fun hc =>
      hall ((allInStages_complete_triple st.others p.stage).mpr hc)
    constructor
    · constructor
      · intro h'
        rw [hst, hg] at h'
        exact absurd h' (by decide)
      · intro hc
        exact absurd hc hcond
    · intro _
      exact hst

/-- A concrete presence in the COMPLETE stage. -/
def pComplete : Presence :=
  { pReady with stage := GameState.COMPLETE }

/-- A concrete other user whose presence is in the COMPLETE stage. -/
def otherComplete : OtherEntry :=
  ⟨some { pReady with name := "d", stage := GameState.COMPLETE }⟩

/-- A concrete state: local client COMPLETE, the only other user COMPLETE. -/
def stCompleteAll : ClientState :=
  { gameState := GameState.COMPLETE, myPresence := some pComplete,
    others := [otherComplete], savedScores := none }

/-- Witness for the amended C4 at a concrete state where every other user is
COMPLETE and the local presence stage is COMPLETE: the event shows the
scores. -/
theorem completeEvent_characterization_witness :
    (gameEvent stCompleteAll).gameState = GameState.SCORES :=
  ((completeEvent_characterization stCompleteAll pComplete rfl rfl).1).mpr
    (by decide)

/-- A concrete other user whose presence is in the SCORES stage. -/
def otherScores : OtherEntry :=
  ⟨some { pReady with name := "e", stage := GameState.SCORES }⟩

/-- A concrete state: local client COMPLETE, the only other user SCORES. -/
def stCompleteMixed : ClientState :=
  { gameState := GameState.COMPLETE, myPresence := some pComplete,
    others := [otherScores], savedScores := none }

/-- C4 counterexample: local presence COMPLETE and the only other user in
SCORES — every user is in SCORES, COMPLETE or WAITING, yet the COMPLETE
event leaves the state unchanged: the JS `some` short-circuits at SCORES
before the local stage has been compared with COMPLETE. -/
theorem completeEvent_counterexample :
    stCompleteMixed.gameState = GameState.COMPLETE ∧
    stCompleteMixed.myPresence = some pComplete ∧
    pComplete.stage = GameState.COMPLETE ∧
    (stCompleteMixed.others.all fun o =>
      match o.presence with
      | some q =>
        q.stage == GameState.SCORES || q.stage == GameState.COMPLETE ||
          q.stage == GameState.WAITING
      | none => false) = true ∧
    gameEvent stCompleteMixed = stCompleteMixed ∧
    (gameEvent stCompleteMixed).gameState ≠ GameState.SCORES := by decide

lemma updateGameStage_some (st : ClientState) (g : GameState) (p : Presence)
    (hp : st.myPresence = some p) :
    updateGameStage st g
      = { st with gameState := g,
                  myPresence := some { p with stage := g } } := by
  unfold updateGameStage
  rw [hp]

lemma scoreWithCorrect_correct (os : Option Score) (n : Nat) :
    (scoreWithCorrect os n).correct = n := by
  cases os <;> rfl

/-- The fold of `scoreOfStates`, started at any accumulator, adds the count
of each of the three non-INITIAL letter states to the matching counter. -/
lemma scoreFold_spec :
    ∀ (ls : List LetterState) (sc : Score),
      ls.foldl (fun sc state =>
        match state with
        | LetterState.CORRECT => { sc with correct := sc.correct + 1 }
        | LetterState.PRESENT => { sc with present := sc.present + 1 }
        | LetterState.ABSENT => { sc with absent := sc.absent + 1 }
        | LetterState.INITIAL => sc) sc
      = { correct := sc.correct + ls.count LetterState.CORRECT,
          present := sc.present + ls.count LetterState.PRESENT,
          absent := sc.absent + ls.count LetterState.ABSENT } := by
  intro ls
  induction ls with
  | nil =>
    intro sc
    simp
  | cons s rest ih =>
    intro sc
    cases s <;> simp [List.count_cons, ih, Score.mk.injEq] <;> omega

/-- `scoreOfStates` counts the occurrences of each tracked letter state. -/
lemma scoreOfStates_count (ls : List LetterState) :
    scoreOfStates ls
      = { correct := ls.count LetterState.CORRECT,
          present := ls.count LetterState.PRESENT,
          absent := ls.count LetterState.ABSENT } := by
  unfold scoreOfStates
  rw [scoreFold_spec]
  simp

/-- The row-counting fold of `onLettersGuessed` computes the length of the
filtered row list, shifted by its accumulator. -/
lemma foldl_rowCount (lb : List (List Tile)) :
    ∀ n : Nat,
      lb.foldl (fun acc curr =>
        if curr.all fun obj => obj.state != LetterState.INITIAL then acc + 1
        else acc) n
      = n + (lb.filter fun row =>
          row.all fun obj => obj.state != LetterState.INITIAL).length := by
  induction lb with
  | nil =>
    intro n
    simp
  | cons r rest ih =>
    intro n
    by_cases hr : (r.all fun obj => obj.state != LetterState.INITIAL) = true
    · rw [List.foldl_cons, if_pos hr, ih, List.filter_cons, if_pos hr,
        List.length_cons]
      omega
    · rw [List.foldl_cons, if_neg hr, ih, List.filter_cons, if_neg hr]

/-- C6: for every guessed row, `onLettersGuessed` updates the local presence
so that `rowsComplete` is the number of board rows whose every tile is not
INITIAL, the score maps each of CORRECT, PRESENT and ABSENT to the number of
guessed letters with that state, and the board is the guessed board. -/
theorem onLettersGuessed_spec (st : ClientState) (p : Presence)
    (ls : List LetterState) (lb : List (List Tile))
    (hp : st.myPresence = some p) :
    ∃ q : Presence,
      (onLettersGuessed st ls lb).myPresence = some q ∧
      q.rowsComplete = (lb.filter fun row =>
        row.all fun obj => obj.state != LetterState.INITIAL).length ∧
      q.score = some
        { correct := ls.count LetterState.CORRECT,
          present := ls.count LetterState.PRESENT,
          absent := ls.count LetterState.ABSENT } ∧
      q.board = lb := by
  unfold onLettersGuessed
  rw [hp]
  refine ⟨_, rfl, ?_, ?_, rfl⟩
  · simpa using foldl_rowCount lb 0
  · simp [scoreOfStates_count]

/-- Witness for C6: one guessed row with one CORRECT tile and letter states
[CORRECT, ABSENT]. -/
theorem onLettersGuessed_spec_witness :
    ∃ q : Presence,
      (onLettersGuessed stWithPresence
          [LetterState.CORRECT, LetterState.ABSENT]
          [[{ letter := 'a', state := LetterState.CORRECT }]]).myPresence
        = some q ∧
      q.rowsComplete = 1 ∧
      q.score = some { correct := 1, present := 0, absent := 1 } ∧
      q.board = [[{ letter := 'a', state := LetterState.CORRECT }]] := by
  obtain ⟨q, hq, h1, h2, h3⟩ := onLettersGuessed_spec stWithPresence pReady
    [LetterState.CORRECT, LetterState.ABSENT]
    [[{ letter := 'a', state := LetterState.CORRECT }]] rfl
  refine ⟨q, hq, ?_, ?_, h3⟩
  · rw [h1]
    decide
  · rw [h2]
    decide

/-- C7: when the local player finishes the puzzle with presence and scores
list available, `onGameComplete` sets both the local stage and the presence
stage to COMPLETE, records a finite `timeFinished`, on success sets the
CORRECT component of the score to the answer's length, and appends the local
presence exactly once to the shared scores list. -/
theorem onGameComplete_spec (st : ClientState) (p : Presence)
    (l : List Presence) (success : Bool) (now len : Nat)
    (hp : st.myPresence = some p) (hs : st.savedScores = some l) :
    ∃ q : Presence,
      (onGameComplete st success now len).myPresence = some q ∧
      (onGameComplete st success now len).gameState = GameState.COMPLETE ∧
      q.stage = GameState.COMPLETE ∧
      q.timeFinished = some now ∧
      (success = true → ∃ s : Score, q.score = some s ∧ s.correct = len) ∧
      (onGameComplete st success now len).savedScores = some (l ++ [q]) := by
  unfold onGameComplete
  rw [hp, updateGameStage_some st GameState.COMPLETE p hp, hs]
  cases success
  · refine ⟨_, rfl, rfl, rfl, rfl, ?_, rfl⟩
    intro h
    exact absurd h (by decide)
  · refine ⟨_, rfl, rfl, rfl, rfl, ?_, rfl⟩
    intro _
    exact ⟨_, rfl, scoreWithCorrect_correct _ _⟩

/-- A concrete state: local client PLAYING, presence available, empty shared
scores list. -/
def stPlayingConnected : ClientState :=
  { gameState := GameState.PLAYING, myPresence := some pReady,
    others := [], savedScores := some [] }

/-- Witness for C7: a successful finish at time 5 with a 3-letter answer. -/
theorem onGameComplete_spec_witness :
    ∃ q : Presence,
      (onGameComplete stPlayingConnected true 5 3).myPresence = some q ∧
      (onGameComplete stPlayingConnected true 5 3).gameState
        = GameState.COMPLETE ∧
      q.stage = GameState.COMPLETE ∧
      q.timeFinished = some 5 ∧
      (true = true → ∃ s : Score, q.score = some s ∧ s.correct = 3) ∧
      (onGameComplete stPlayingConnected true 5 3).savedScores
        = some ([] ++ [q]) :=
  onGameComplete_spec stPlayingConnected pReady [] true 5 3 rfl rfl

/-- `othersFilterOdd` with the enumeration started at an arbitrary index,
for the induction below. -/
def oddIdxFilter (odd : Bool) (n : Nat) (l : List Presence) : List Presence :=
  ((l.enumFrom n).filter fun io =>
    io.2.score.isSome && (io.1 % 2 == if odd then 1 else 0)).map Prod.snd

lemma othersFilterOdd_eq_oddIdxFilter (ops : List Presence) (odd : Bool) :
    othersFilterOdd ops odd = oddIdxFilter odd 0 ops := rfl

lemma oddIdxFilter_nil (odd : Bool) (n : Nat) :
    oddIdxFilter odd n [] = [] := rfl

lemma oddIdxFilter_cons (odd : Bool) (n : Nat) (p : Presence)
    (l : List Presence) :
    oddIdxFilter odd n (p :: l)
      = (if p.score.isSome && (n % 2 == if odd then 1 else 0)
          then [p] else [])
        ++ oddIdxFilter odd (n + 1) l := by
  by_cases h : (p.score.isSome && (n % 2 == if odd then 1 else 0)) = true
  · simp [oddIdxFilter, List.enumFrom, List.filter_cons, h]
  · simp [oddIdxFilter, List.enumFrom, List.filter_cons, h]

/-- Whatever the starting index, the entries kept at odd positions and the
entries kept at even positions together are a permutation of all scored
entries. -/
lemma oddIdxFilter_perm (l : List Presence) :
    ∀ n : Nat,
      (oddIdxFilter true n l ++ oddIdxFilter false n l).Perm
        (l.filter fun o => o.score.isSome) := by
  induction l with
  | nil =>
    intro n
    simp [oddIdxFilter_nil]
  | cons p rest ih =>
    intro n
    rw [oddIdxFilter_cons, oddIdxFilter_cons, List.filter_cons]
    rcases Nat.mod_two_eq_zero_or_one n with hn | hn
    · by_cases hs : p.score.isSome = true
      · rw [if_neg (by simp [hn]), if_pos (by simp [hs, hn]), if_pos hs]
        simp only [List.nil_append, List.singleton_append]
        exact List.perm_middle.trans ((ih (n + 1)).cons p)
      · rw [if_neg (by simp [hs]), if_neg (by simp [hs]), if_neg hs]
        simp only [List.nil_append]
        exact ih (n + 1)
    · by_cases hs : p.score.isSome = true
      · rw [if_pos (by simp [hs, hn]), if_neg (by simp [hn]), if_pos hs]
        simp only [List.singleton_append, List.nil_append, List.cons_append]
        exact (ih (n + 1)).cons p
      · rw [if_neg (by simp [hs]), if_neg (by simp [hs]), if_neg hs]
        simp only [List.nil_append]
        exact ih (n + 1)

/-- C10: the odd/even split used to render the live boards on the two sides
of the screen shows each scored peer exactly once: the two filtered lists
together are a permutation of the scored presences of `othersPresence`, and
the per-element counts of the two lists add up to the count among the scored
presences. -/
theorem othersFilterOdd_partition (ops : List Presence) :
    ((othersFilterOdd ops true ++ othersFilterOdd ops false).Perm
      (ops.filter fun o => o.score.isSome)) ∧
    (∀ p : Presence,
      (othersFilterOdd ops true).count p
          + (othersFilterOdd ops false).count p
        = (ops.filter fun o => o.score.isSome).count p) := by
  have hperm : (othersFilterOdd ops true ++ othersFilterOdd ops false).Perm
      (ops.filter fun o => o.score.isSome) := by
    rw [othersFilterOdd_eq_oddIdxFilter, othersFilterOdd_eq_oddIdxFilter]
    exact oddIdxFilter_perm ops 0
  refine ⟨hperm, fun p => ?_⟩
  have hc := hperm.count_eq p
  rwa [List.count_append] at hc
